import Mathlib

/-!
Verification of the multi-layer probe example
(`dev/_downloads/.../multi_layer_probe.py`) of the stable-pretraining
documentation repository, against its natural-language specification.

The script attaches one linear probe per transformer block of a frozen
vision backbone.  We embed the data model and the operations the claims
are about:

* hidden-state tensors with an attached-to-graph flag (torch autograd
  boundary);
* the pooling rules `cls` (first token) and `mean` (mean over tokens);
* the fan-out `forward` closure built by `build_module` (one backbone
  call, then one pooled, detached embedding per configured block index);
* the `MODEL_ZOO` registry and `load_backbone`;
* `build_probes` and the startup layer selection
  `list(range(0, num_layers, probe_skip))`.

Scalars are modelled as exact rationals (`ℚ`); a tensor of shape
(batch, tokens, hidden_dim) is a rectangular nested list.
-/

/-- A per-layer hidden-state tensor of shape (batch, tokens, hidden_dim),
together with the flag saying whether the tensor is still attached to the
backbone's autograd graph (`torch` tensors produced by a module forward are
attached; `detach` clears the flag). -/
structure T3 where
  data : List (List (List ℚ))
  graph : Bool
  deriving DecidableEq, Repr

/-- A pooled embedding tensor of shape (batch, hidden_dim), with the same
autograd-graph flag. -/
structure T2 where
  data : List (List ℚ)
  graph : Bool
  deriving DecidableEq, Repr

/-- Default hidden-state tensor used to totalize out-of-range indexing
(the Python code would raise `IndexError`; every theorem below that reads a
hidden state carries an in-range hypothesis). -/
def t3default : T3 := ⟨[], true⟩

/-- `x[:, 0]`: per batch element, the embedding at sequence position 0.
Embedding of line 180 of the source (`x = x[:, 0]`). -/
def firstToken (x : T3) : T2 :=
  ⟨x.data.map (fun r => r.getD 0 []), x.graph⟩

/-- `x.mean(dim=1)`: per batch element, the arithmetic mean over the token
dimension.  Embedding of line 182 of the source (`x = x.mean(dim=1)`);
`torch.Tensor.mean(dim=1)` on a rectangular (tokens × hidden_dim) slice `r`
yields the vector whose coordinate `d` is `(Σ t, r[t][d]) / tokens`. -/
def meanTokens (x : T3) : T2 :=
  ⟨x.data.map (fun r =>
      (List.range (r.headD []).length).map
        (fun d => (r.map (fun v => v.getD d 0)).sum / (r.length : ℚ))),
    x.graph⟩

/-- `x.detach()`: same data, no longer attached to the autograd graph.
Embedding of line 186 of the source. -/
def detach (x : T2) : T2 := ⟨x.data, false⟩

/-- The pooling dispatch of lines 179-184 of the source: `cls` takes the
first token, `mean` averages tokens, anything else raises
`ValueError(f"Unknown pooling type: {pooling}")`. -/
def pickPool (pooling : String) (x : T3) : Except String T2 :=
  if pooling = "cls" then .ok (firstToken x)
  else if pooling = "mean" then .ok (meanTokens x)
  else .error ("Unknown pooling type: " ++ pooling)

/-- The loop of lines 176-186 of the source: for each configured block
index `i`, read hidden state `1 + i` from the captured sequence, pool it,
detach it, and store it under key `embedding_layer_{i}` (insertion order of
the Python dict is the loop order, so the output is an association list in
index order). -/
def forwardLoop : List ℕ → List T3 → String → Except String (List (String × T2))
  | [], _, _ => .ok []
  | i :: rest, hiddens, pooling =>
    match pickPool pooling (hiddens.getD (1 + i) t3default) with
    | .error e => .error e
    | .ok x =>
      match forwardLoop rest hiddens pooling with
      | .error e => .error e
      | .ok out => .ok (("embedding_layer_" ++ toString i, detach x) :: out)

/-- The frozen backbone: a callable from a (preprocessed) batch, identified
by a natural number, to the ordered hidden-state sequence
`[embeddings, block1, block2, ...]` it returns with
`output_hidden_states=True`. -/
structure Backbone where
  run : ℕ → List T3

/-- One invocation of the backbone (line 172 of the source,
`self.model(**images, output_hidden_states=True)`), instrumented with a
call counter so that the number of backbone evaluations per forward is a
provable quantity. -/
def callBackbone (bb : Backbone) (images : ℕ) (calls : ℕ) : List T3 × ℕ :=
  (bb.run images, calls + 1)

/-- The fan-out `forward` of lines 162-187 of the source: invoke the
backbone once, capture its hidden-state sequence, then compute every
configured embedding from that single captured sequence.  Returns the
output mapping together with the updated backbone-call counter. -/
def forward (bb : Backbone) (indices : List ℕ) (pooling : String)
    (images : ℕ) (calls : ℕ) : Except String (List (String × T2)) × ℕ :=
  let r := callBackbone bb images calls
  (forwardLoop indices r.1 pooling, r.2)

/-- The module assembled by `build_module` (lines 156-195 of the source):
it stores the backbone, the configured block indices and the pooling mode,
and its per-batch behavior is `forward` above.  Construction performs no
validation of any field. -/
structure SptModule where
  model : Backbone
  indices : List ℕ
  pooling : String

/-- `build_module` (lines 156-195 of the source): packs the backbone, the
block indices and the pooling string into a module.  It is total: no
configuration check happens at setup. -/
def build_module (model : Backbone) (indices : List ℕ) (pooling : String) :
    SptModule :=
  ⟨model, indices, pooling⟩

-- Sanity: the loop on a depth-1 backbone.
example :
    forwardLoop [0] [⟨[[[5]]], true⟩, ⟨[[[7]]], true⟩] "cls" =
      .ok [("embedding_layer_0", ⟨[[7]], false⟩)] := rfl

example :
    forwardLoop [0] [⟨[[[5]]], true⟩, ⟨[[[7], [9]]], true⟩] "mean" =
      .ok [("embedding_layer_0", ⟨[[8]], false⟩)] := by
  simp [forwardLoop, pickPool, meanTokens, detach, List.range_succ]
  norm_num
  rfl

/-- One entry of the `MODEL_ZOO` registry (lines 29-70 of the source).
Class objects (`processor_cls`, `model_cls`) are represented by their
names; `probe_skip` is optional because `load_backbone` reads it with
`spec.get("probe_skip", 1)`. -/
structure ModelSpec where
  processor_cls : String
  processor_name : String
  model_cls : String
  model_name : String
  pooling : String
  probe_skip : Option ℕ
  deriving DecidableEq, Repr

/-- The `MODEL_ZOO` registry of lines 29-70 of the source, as an
association list in source order. -/
def MODEL_ZOO : List (String × ModelSpec) :=
  [("DINOv2",
    ⟨"AutoImageProcessor", "facebook/dinov2-base", "AutoModel",
      "facebook/dinov2-base", "cls", some 1⟩),
   ("DINOv3",
    ⟨"AutoImageProcessor", "facebook/dinov3-vitb16-pretrain-lvd1689m",
      "AutoModel", "facebook/dinov3-vitb16-pretrain-lvd1689m", "cls",
      some 1⟩),
   ("MetaCLIP",
    ⟨"AutoProcessor", "facebook/metaclip-b16-400m",
      "AutoModelForZeroShotImageClassification", "facebook/metaclip-b16-400m",
      "mean", some 1⟩),
   ("IJEPA-1k",
    ⟨"AutoImageProcessor", "facebook/ijepa_vith14_1k", "AutoModel",
      "facebook/ijepa_vith14_1k", "mean", some 1⟩),
   ("IJEPA-22k",
    ⟨"AutoImageProcessor", "facebook/ijepa_vith14_22k", "AutoModel",
      "facebook/ijepa_vith14_22k", "mean", some 1⟩)]

/-- The configuration items `load_backbone` decides from the registry
entry: the pooling mode and the probe stride.  (The embedding dimension
and layer count come from the downloaded model's config object, an
external artifact outside this embedding.) -/
structure BackboneLoad where
  pooling : String
  probe_skip : ℕ
  deriving DecidableEq, Repr

/-- `load_backbone` (lines 132-148 of the source), restricted to the
registry-driven parts.  The source reads the process-global `MODEL_ZOO`;
the embedding passes that global explicitly as `zoo`.
`MODEL_ZOO[model_name]` raises `KeyError` for an unknown name, modelled as
the error case; `spec.get("probe_skip", 1)` substitutes 1 when the key is
absent, modelled with `Option.getD`. -/
def load_backbone (zoo : List (String × ModelSpec)) (model_name : String) :
    Except String BackboneLoad :=
  match zoo.find? (fun p => p.1 = model_name) with
  | none => .error ("KeyError: " ++ model_name)
  | some p => .ok ⟨p.2.pooling, p.2.probe_skip.getD 1⟩

/-- One `spt.callbacks.OnlineProbe` as configured by `build_probes`
(lines 203-226 of the source): its binding strings and the configuration
of its head, optimizer and scheduler.  The probe network itself
(`BatchNorm1d` then `Linear(emb_dim, num_classes)`) lives in the external
library; its input/output widths are recorded. -/
structure OnlineProbe where
  target : String
  name : String
  input : String
  probe_in : ℕ
  probe_out : ℕ
  optimizer_type : String
  lr : ℚ
  scheduler_type : String
  T_max : ℕ
  deriving DecidableEq, Repr

/-- `build_probes` (lines 203-226 of the source): one probe per configured
transformer block index, named `linear_probe_block_{i}` and reading input
key `embedding_layer_{i}`. -/
def build_probes (emb_dim num_classes : ℕ)
    (transformer_block_indices : List ℕ) : List OnlineProbe :=
  transformer_block_indices.map (fun i =>
    ⟨"label", "linear_probe_block_" ++ toString i,
      "embedding_layer_" ++ toString i, emb_dim, num_classes,
      "SGD", 1 / 1000, "CosineAnnealingLR", 100⟩)

/-- Fuel-indexed helper for `pyRange`: emits `start`, `start + step`, ...
while below `stop`, consuming one unit of fuel per element. -/
def pyRangeAux (step : ℕ) : ℕ → ℕ → ℕ → List ℕ
  | 0, _, _ => []
  | fuel + 1, start, stop =>
    if start < stop then start :: pyRangeAux step fuel (start + step) stop
    else []

/-- Python's `range(start, stop, step)` over naturals (for `step ≥ 1`;
the source only ever calls it with `probe_skip ≥ 1`).  `stop - start` units
of fuel suffice because each emitted element advances `start` by at least
one.  Line 243 of the source computes
`list(range(0, num_layers, probe_skip))`. -/
def pyRange (start stop step : ℕ) : List ℕ :=
  pyRangeAux step (stop - start) start stop

-- Sanity: `range(0, 5, 2) = [0, 2, 4]`, `range(0, 3, 1) = [0, 1, 2]`.
example : pyRange 0 5 2 = [0, 2, 4] := rfl

example : pyRange 0 3 1 = [0, 1, 2] := rfl

/-- A probe's per-step training outcome on a batch (identified by a
natural number): a loss value, or a failure message (e.g. a non-finite
loss). -/
abbrev ProbeStep := ℕ → Except String ℚ

/-- Modelled from the spec: the Probe Set Coordinator's per-step dispatch
and error policy live in the external `stable_pretraining` library
(`spt.callbacks.OnlineProbe` driven as trainer callbacks via
`spt.Manager`), not under `src/`.  Per spec §4.3, `step` invokes every
bound probe's train step on the shared batch and collects each outcome —
success or failure — into the StepReport under that probe's name, without
any probe's failure aborting the others. -/
def coordinator_step (probes : List (String × ProbeStep)) (batch : ℕ) :
    List (String × Except String ℚ) :=
  probes.map (fun p => (p.1, p.2 batch))

/-- Gradient-flow model of the torch autograd boundary: a backward pass
from a probe's loss can reach the backbone parameters only through an
embedding tensor still attached to the backbone graph (`graph = true`).
`backboneParamsAfterProbeStep params emb g` is the backbone parameter
vector after one probe train step whose input embedding was `emb` and
whose backprop would contribute gradient `g`: a detached input blocks the
path and the parameters are untouched. -/
def backboneParamsAfterProbeStep (params : List ℚ) (emb : T2)
    (g : List ℚ) : List ℚ :=
  if emb.graph then List.zipWith (fun w dw => w - dw) params g else params

/-- Backbone parameters after a sequence of probe train steps, each given
by its input embedding and the gradient it would contribute. -/
def backboneParamsAfterSteps (params : List ℚ)
    (steps : List (T2 × List ℚ)) : List ℚ :=
  steps.foldl (fun p s => backboneParamsAfterProbeStep p s.1 s.2) params

/-- Rectangularity of a (batch, tokens, hidden_dim) tensor payload. -/
def rect3 (x : List (List (List ℚ))) (B T D : ℕ) : Prop :=
  x.length = B ∧ ∀ r ∈ x, r.length = T ∧ ∀ v ∈ r, v.length = D

/-- Shape predicate for a (batch, hidden_dim) payload. -/
def shape2 (x : List (List ℚ)) (B D : ℕ) : Prop :=
  x.length = B ∧ ∀ v ∈ x, v.length = D

/-- The total pooling function applied when the pooling mode is
recognized. -/
def poolFn (pooling : String) (x : T3) : T2 :=
  if pooling = "cls" then firstToken x else meanTokens x

lemma pickPool_valid (pooling : String) (x : T3)
    (hp : pooling = "cls" ∨ pooling = "mean") :
    pickPool pooling x = .ok (poolFn pooling x) := by
  rcases hp with hp | hp <;> simp [pickPool, poolFn, hp]

lemma forwardLoop_eq_map (indices : List ℕ) (hiddens : List T3)
    (pooling : String) (hp : pooling = "cls" ∨ pooling = "mean") :
    forwardLoop indices hiddens pooling =
      .ok (indices.map (fun i =>
        ("embedding_layer_" ++ toString i,
          detach (poolFn pooling (hiddens.getD (1 + i) t3default))))) := by
  induction indices with
  | nil => rfl
  | cons i rest ih =>
      simp only [forwardLoop, pickPool_valid _ _ hp, ih, List.map_cons]

lemma forwardLoop_detached (indices : List ℕ) (hiddens : List T3)
    (pooling : String) (l : List (String × T2))
    (h : forwardLoop indices hiddens pooling = .ok l) :
    ∀ p ∈ l, p.2.graph = false := by
  induction indices generalizing l with
  | nil =>
      simp only [forwardLoop, Except.ok.injEq] at h
      subst h; simp
  | cons i rest ih =>
      simp only [forwardLoop] at h
      cases hp : pickPool pooling (hiddens.getD (1 + i) t3default) with
      | error e => rw [hp] at h; cases h
      | ok x =>
          rw [hp] at h
          cases hr : forwardLoop rest hiddens pooling with
          | error e => rw [hr] at h; cases h
          | ok out =>
              rw [hr] at h
              cases h
              intro p hpmem
              rcases List.mem_cons.mp hpmem with rfl | hpmem
              · rfl
              · exact ih out hr p hpmem

lemma params_unchanged (params : List ℚ) (steps : List (T2 × List ℚ))
    (h : ∀ s ∈ steps, s.1.graph = false) :
    backboneParamsAfterSteps params steps = params := by
  induction steps generalizing params with
  | nil => rfl
  | cons s rest ih =>
      have hs : s.1.graph = false := h s (List.mem_cons_self s rest)
      simp only [backboneParamsAfterSteps, List.foldl_cons,
        backboneParamsAfterProbeStep, hs, if_neg Bool.false_ne_true]
      exact ih params (fun t ht => h t (List.mem_cons_of_mem s ht))

/-- Claim C1: the backbone forward pass (`self.model(...)`) is invoked
exactly once per call of the module's `forward`, whatever the list of
configured layer indices is, and the whole output mapping is computed by
the fan-out loop from the single hidden-state sequence captured by that
one call. -/
theorem backbone_forward_called_once (bb : Backbone) (indices : List ℕ)
    (pooling : String) (images calls : ℕ) :
    (forward bb indices pooling images calls).2 = calls + 1 ∧
    (forward bb indices pooling images calls).1 =
      forwardLoop indices (bb.run images) pooling :=
  ⟨rfl, rfl⟩

/-- Claim C2: for every configured layer index `i`, the embedding stored
under `embedding_layer_i` is the pooled, detached hidden state at sequence
position `1 + i`; and on a depth-1 backbone with layer index 0 and
first-token pooling the output embedding is exactly token position 0 of
hidden-state index 1. -/
theorem layer_index_offset (hiddens : List T3) (indices : List ℕ)
    (pooling : String) (hp : pooling = "cls" ∨ pooling = "mean")
    (i : ℕ) (hi : i ∈ indices) :
    (∃ l, forwardLoop indices hiddens pooling = .ok l ∧
        ("embedding_layer_" ++ toString i,
          detach (poolFn pooling (hiddens.getD (1 + i) t3default))) ∈ l) ∧
    (∀ h0 h1 : T3,
        forwardLoop [0] [h0, h1] "cls" =
          .ok [("embedding_layer_0", detach (firstToken h1))] ∧
        (detach (firstToken h1)).data =
          (([h0, h1].getD 1 t3default).data.map (fun r => r.getD 0 []))) := by
  constructor
  · refine ⟨_, forwardLoop_eq_map indices hiddens pooling hp, ?_⟩
    exact List.mem_map_of_mem _ hi
  · intro h0 h1
    exact ⟨rfl, rfl⟩

/-- Witness for `layer_index_offset` at a concrete depth-1 backbone. -/
theorem layer_index_offset_witness :
    (∃ l, forwardLoop [0] [⟨[[[5]]], true⟩, ⟨[[[7]]], true⟩] "cls" = .ok l ∧
        ("embedding_layer_" ++ toString 0,
          detach (poolFn "cls"
            (([⟨[[[5]]], true⟩, ⟨[[[7]]], true⟩] : List T3).getD (1 + 0)
              t3default))) ∈ l) ∧
    (∀ h0 h1 : T3,
        forwardLoop [0] [h0, h1] "cls" =
          .ok [("embedding_layer_0", detach (firstToken h1))] ∧
        (detach (firstToken h1)).data =
          (([h0, h1].getD 1 t3default).data.map (fun r => r.getD 0 []))) :=
  layer_index_offset [⟨[[[5]]], true⟩, ⟨[[[7]]], true⟩] [0] "cls"
    (Or.inl rfl) 0 (List.mem_singleton.mpr rfl)

/-- Claim C3: every tensor in the fan-out output is detached
(`graph = false`), and therefore the backbone's parameters are unchanged
after any sequence of probe train steps whose input embeddings came from
fan-out outputs: no gradient path from any probe loss reaches the
backbone. -/
theorem outputs_detached_backbone_frozen
    (indices : List ℕ) (hiddens : List T3) (pooling : String)
    (l : List (String × T2)) (hl : forwardLoop indices hiddens pooling = .ok l)
    (params : List ℚ) (steps : List (T2 × List ℚ))
    (hsteps : ∀ s ∈ steps, ∃ idx hid pl l',
        forwardLoop idx hid pl = .ok l' ∧ s.1 ∈ l'.map Prod.snd) :
    (∀ p ∈ l, p.2.graph = false) ∧
    backboneParamsAfterSteps params steps = params := by
  refine ⟨forwardLoop_detached _ _ _ _ hl, params_unchanged _ _ ?_⟩
  intro s hs
  obtain ⟨idx, hid, pl, l', hfwd, hmem⟩ := hsteps s hs
  obtain ⟨p, hpmem, hps⟩ := List.mem_map.mp hmem
  rw [← hps]
  exact forwardLoop_detached _ _ _ _ hfwd p hpmem

/-- Witness for `outputs_detached_backbone_frozen`: one concrete forward
output, one probe train step consuming it, parameters `[1, 2]`
untouched. -/
theorem outputs_detached_backbone_frozen_witness :
    (∀ p ∈ [("embedding_layer_0", (⟨[[7]], false⟩ : T2))], p.2.graph = false) ∧
    backboneParamsAfterSteps [1, 2] [((⟨[[7]], false⟩ : T2), [5, 5])] = [1, 2] :=
  outputs_detached_backbone_frozen [0] [⟨[[[5]]], true⟩, ⟨[[[7]]], true⟩] "cls"
    [("embedding_layer_0", ⟨[[7]], false⟩)] rfl [1, 2]
    [((⟨[[7]], false⟩ : T2), [5, 5])]
    (by
      intro s hs
      have hseq := List.mem_singleton.mp hs
      subst hseq
      exact ⟨[0], [⟨[[[5]]], true⟩, ⟨[[[7]]], true⟩], "cls",
        [("embedding_layer_0", ⟨[[7]], false⟩)], rfl, by simp⟩)

lemma firstToken_shape (x : T3) (B T D : ℕ)
    (hx : rect3 x.data B T D) (hT : 1 ≤ T) :
    shape2 (firstToken x).data B D := by
  obtain ⟨hlen, hrow⟩ := hx
  refine ⟨by simp [firstToken, hlen], ?_⟩
  intro v hv
  simp only [firstToken] at hv
  obtain ⟨r, hr, rfl⟩ := List.mem_map.mp hv
  obtain ⟨hrT, hrD⟩ := hrow r hr
  have h0 : 0 < r.length := by omega
  rw [List.getD_eq_getElem r [] h0]
  exact hrD _ (List.getElem_mem h0)

lemma meanTokens_shape (x : T3) (B T D : ℕ)
    (hx : rect3 x.data B T D) (hT : 1 ≤ T) :
    shape2 (meanTokens x).data B D := by
  obtain ⟨hlen, hrow⟩ := hx
  refine ⟨by simp [meanTokens, hlen], ?_⟩
  intro v hv
  simp only [meanTokens] at hv
  obtain ⟨r, hr, rfl⟩ := List.mem_map.mp hv
  obtain ⟨hrT, hrD⟩ := hrow r hr
  have hne : r ≠ [] := by
    intro h
    rw [h] at hrT
    simp at hrT
    omega
  obtain ⟨a, t, rfl⟩ := List.exists_cons_of_ne_nil hne
  have ha : a.length = D := hrD a (List.mem_cons_self a t)
  simp [ha]

/-- Claim C4: on a rectangular (batch, tokens, hidden_dim) hidden-state
tensor with at least one token, first-token pooling returns the slice at
sequence position 0 and mean-token pooling returns the arithmetic mean
over the token dimension, both of shape (batch, hidden_dim). -/
theorem pooling_semantics (x : T3) (B T D : ℕ)
    (hx : rect3 x.data B T D) (hT : 1 ≤ T) :
    (∀ b, b < B →
      (firstToken x).data.getD b [] = (x.data.getD b []).getD 0 []) ∧
    shape2 (firstToken x).data B D ∧
    (∀ b d, b < B → d < D →
      ((meanTokens x).data.getD b []).getD d 0 =
        ((x.data.getD b []).map (fun v => v.getD d 0)).sum / (T : ℚ)) ∧
    shape2 (meanTokens x).data B D := by
  obtain ⟨hlen, hrow⟩ := hx
  refine ⟨?_, firstToken_shape x B T D ⟨hlen, hrow⟩ hT, ?_,
    meanTokens_shape x B T D ⟨hlen, hrow⟩ hT⟩
  · intro b hb
    have hb1 : b < x.data.length := by rw [hlen]; exact hb
    have hb2 : b < (x.data.map (fun r => r.getD 0 [])).length := by
      simpa using hb1
    show (x.data.map (fun r => r.getD 0 [])).getD b [] =
      (x.data.getD b []).getD 0 []
    rw [List.getD_eq_getElem _ _ hb2, List.getElem_map,
      List.getD_eq_getElem _ _ hb1]
  · intro b d hb hd
    have hb1 : b < x.data.length := by rw [hlen]; exact hb
    obtain ⟨hrT, hrD⟩ := hrow _ (List.getElem_mem hb1)
    have hb2 : b < (meanTokens x).data.length := by
      simp [meanTokens]; omega
    have e1 : (meanTokens x).data.getD b [] =
        (List.range ((x.data[b]).headD []).length).map
          (fun dd => ((x.data[b]).map (fun v => v.getD dd 0)).sum /
            ((x.data[b]).length : ℚ)) := by
      show (x.data.map _).getD b [] = _
      rw [List.getD_eq_getElem _ _ (by simpa using hb1), List.getElem_map]
    have hDlen : ((x.data[b]).headD []).length = D := by
      cases hcase : x.data[b] with
      | nil => rw [hcase] at hrT; simp at hrT; omega
      | cons a t =>
          have : a ∈ x.data[b] := by
            rw [hcase]; exact List.mem_cons_self a t
          simpa using hrD a this
    have hd2 : d < ((List.range ((x.data[b]).headD []).length).map
        (fun dd => ((x.data[b]).map (fun v => v.getD dd 0)).sum /
          ((x.data[b]).length : ℚ))).length := by
      simp only [List.length_map, List.length_range, hDlen]
      exact hd
    rw [e1, List.getD_eq_getElem _ _ hd2, List.getElem_map,
      List.getElem_range, List.getD_eq_getElem _ _ hb1, hrT]

/-- Witness for `pooling_semantics` on a concrete 1×2×1 tensor. -/
theorem pooling_semantics_witness :
    (∀ b, b < 1 →
      (firstToken ⟨[[[7], [9]]], true⟩).data.getD b [] =
        ((⟨[[[7], [9]]], true⟩ : T3).data.getD b []).getD 0 []) ∧
    shape2 (firstToken ⟨[[[7], [9]]], true⟩).data 1 1 ∧
    (∀ b d, b < 1 → d < 1 →
      ((meanTokens ⟨[[[7], [9]]], true⟩).data.getD b []).getD d 0 =
        (((⟨[[[7], [9]]], true⟩ : T3).data.getD b []).map
          (fun v => v.getD d 0)).sum / ((2 : ℕ) : ℚ)) ∧
    shape2 (meanTokens ⟨[[[7], [9]]], true⟩).data 1 1 :=
  pooling_semantics ⟨[[[7], [9]]], true⟩ 1 2 1 (by
    refine ⟨rfl, ?_⟩
    intro r hr
    simp at hr
    subst hr
    refine ⟨rfl, ?_⟩
    intro v hv
    simp at hv
    rcases hv with hv | hv <;> subst hv <;> rfl) (by omega)

/-- A concrete stub backbone for counterexamples and witnesses. -/
def stubBackbone : Backbone :=
  ⟨fun _ => [⟨[[[1]]], true⟩, ⟨[[[2]]], true⟩]⟩

/-- Claim C5 counterexample: with the unrecognized pooling mode `"max"`,
module construction completes with no error (`build_module` performs no
validation, so nothing is rejected at setup), and the error is first
raised during the per-batch forward pass — contradicting the claim that
an unrecognized pooling mode is rejected at setup before any batch. -/
theorem pooling_error_not_at_setup_cex :
    (build_module stubBackbone [0] "max").pooling = "max" ∧
    (forward (build_module stubBackbone [0] "max").model
        (build_module stubBackbone [0] "max").indices
        (build_module stubBackbone [0] "max").pooling 0 0).1 =
      .error ("Unknown pooling type: max") :=
  ⟨rfl, rfl⟩

/-- Claim C5 (amended): an unrecognized pooling mode passes setup
untouched (`build_module` stores it as-is) and raises
`ValueError("Unknown pooling type: ...")` at the first per-batch forward
pass over a nonempty index list. -/
theorem pooling_error_raised_per_batch (bb : Backbone) (i : ℕ)
    (rest : List ℕ) (pooling : String) (hiddens : List T3)
    (h1 : pooling ≠ "cls") (h2 : pooling ≠ "mean") :
    (build_module bb (i :: rest) pooling).pooling = pooling ∧
    forwardLoop (i :: rest) hiddens pooling =
      .error ("Unknown pooling type: " ++ pooling) := by
  refine ⟨rfl, ?_⟩
  simp only [forwardLoop, pickPool, if_neg h1, if_neg h2]

/-- Witness for `pooling_error_raised_per_batch` at pooling `"max"`. -/
theorem pooling_error_raised_per_batch_witness :
    (build_module stubBackbone [0] "max").pooling = "max" ∧
    forwardLoop [0] [⟨[[[1]]], true⟩, ⟨[[[2]]], true⟩] "max" =
      .error ("Unknown pooling type: " ++ "max") :=
  pooling_error_raised_per_batch stubBackbone 0 [] "max"
    [⟨[[[1]]], true⟩, ⟨[[[2]]], true⟩] (by decide) (by decide)

/-- Claim C6: for a valid pooling mode and configured layer indices all
within depth, the fan-out returns, for any rectangular batch with at
least one token, exactly one embedding per configured index — the key
list is exactly `embedding_layer_i` in configuration order — each of
shape (batch, embedding_dim). -/
theorem fanout_keys_and_shapes
    (indices : List ℕ) (hiddens : List T3) (pooling : String) (B T D : ℕ)
    (hp : pooling = "cls" ∨ pooling = "mean") (hB : 1 ≤ B) (hT : 1 ≤ T)
    (hrect : ∀ h ∈ hiddens, rect3 h.data B T D)
    (hidx : ∀ i ∈ indices, 1 + i < hiddens.length) :
    ∃ l, forwardLoop indices hiddens pooling = .ok l ∧
      l.map Prod.fst =
        indices.map (fun i => "embedding_layer_" ++ toString i) ∧
      ∀ p ∈ l, shape2 p.2.data B D := by
  refine ⟨_, forwardLoop_eq_map indices hiddens pooling hp, ?_, ?_⟩
  · rw [List.map_map]
    rfl
  · intro p hp2
    obtain ⟨i, hi, rfl⟩ := List.mem_map.mp hp2
    have hin : 1 + i < hiddens.length := hidx i hi
    have hmem : hiddens.getD (1 + i) t3default ∈ hiddens := by
      rw [List.getD_eq_getElem _ _ hin]
      exact List.getElem_mem hin
    have hr := hrect _ hmem
    rcases hp with hpp | hpp <;> subst hpp
    · simpa [poolFn, detach] using
        firstToken_shape _ B T D hr hT
    · simpa [poolFn, detach] using
        meanTokens_shape _ B T D hr hT

/-- Witness for `fanout_keys_and_shapes` on a depth-1 stub backbone. -/
theorem fanout_keys_and_shapes_witness :
    ∃ l, forwardLoop [0] [⟨[[[1]]], true⟩, ⟨[[[2]]], true⟩] "cls" = .ok l ∧
      l.map Prod.fst =
        ([0] : List ℕ).map (fun i => "embedding_layer_" ++ toString i) ∧
      ∀ p ∈ l, shape2 p.2.data 1 1 :=
  fanout_keys_and_shapes [0] [⟨[[[1]]], true⟩, ⟨[[[2]]], true⟩] "cls" 1 1 1
    (Or.inl rfl) (by omega) (by omega)
    (by
      intro h hh
      simp at hh
      rcases hh with hh | hh <;> subst hh <;>
        exact ⟨rfl, by
          intro r hr
          simp at hr
          subst hr
          exact ⟨rfl, by
            intro v hv
            simp at hv
            subst hv
            rfl⟩⟩)
    (by
      intro i hi
      simp at hi
      subst hi
      decide)

/-- A registry entry with no `probe_skip` key and an invalid pooling
value, for exercising `load_backbone`'s handling of bad configuration. -/
def specNoSkip : ModelSpec :=
  ⟨"AutoImageProcessor", "proc", "AutoModel", "some/model", "bogus", none⟩

/-- Claim C7 counterexample: for a registry entry whose `probe_skip` is
missing and whose pooling value is invalid, `load_backbone` succeeds at
setup, silently substituting the default `probe_skip = 1`
(`spec.get("probe_skip", 1)`, line 143) and accepting the bad pooling
string unchecked — contradicting the claim that an invalid or missing
configuration value always causes a setup error and is never silently
defaulted. -/
theorem config_silently_defaulted_cex :
    load_backbone [("X", specNoSkip)] "X" = .ok ⟨"bogus", 1⟩ := rfl

/-- Claim C7 (amended): an unknown model name does fail fast at setup
with a `KeyError` naming the model, but for a found entry `load_backbone`
never errors: a missing `probe_skip` is silently defaulted to 1 and the
pooling value is passed through unvalidated. -/
theorem load_backbone_error_behavior (zoo : List (String × ModelSpec))
    (model_name : String) :
    (zoo.find? (fun p => p.1 = model_name) = none →
      load_backbone zoo model_name = .error ("KeyError: " ++ model_name)) ∧
    (∀ p, zoo.find? (fun p => p.1 = model_name) = some p →
      load_backbone zoo model_name =
        .ok ⟨p.2.pooling, p.2.probe_skip.getD 1⟩) := by
  constructor
  · intro h
    simp [load_backbone, h]
  · intro p h
    simp [load_backbone, h]

/-- Witness for `load_backbone_error_behavior`: a hit on `"DINOv2"` and a
miss on `"nope"` in the actual registry. -/
theorem load_backbone_error_behavior_witness :
    load_backbone MODEL_ZOO "DINOv2" = .ok ⟨"cls", 1⟩ ∧
    load_backbone MODEL_ZOO "nope" = .error ("KeyError: " ++ "nope") :=
  ⟨(load_backbone_error_behavior MODEL_ZOO "DINOv2").2
      ("DINOv2",
        ⟨"AutoImageProcessor", "facebook/dinov2-base", "AutoModel",
          "facebook/dinov2-base", "cls", some 1⟩) rfl,
    (load_backbone_error_behavior MODEL_ZOO "nope").1 rfl⟩

/-- Claim C8: if one probe's train step fails on a batch, the step report
still carries that failure under that probe's name, every probe's own
outcome (including every other probe's successful step) appears in the
same report, and the report covers exactly the bound probes. -/
theorem coordinator_isolates_probe_failure
    (probes : List (String × ProbeStep)) (batch : ℕ) (nm : String)
    (f : ProbeStep) (e : String)
    (hmem : (nm, f) ∈ probes) (hfail : f batch = .error e) :
    (nm, Except.error e) ∈ coordinator_step probes batch ∧
    (∀ q ∈ probes, (q.1, q.2 batch) ∈ coordinator_step probes batch) ∧
    (coordinator_step probes batch).length = probes.length := by
  refine ⟨?_, ?_, by simp [coordinator_step]⟩
  · have h := List.mem_map_of_mem
      (fun p : String × ProbeStep => (p.1, p.2 batch)) hmem
    simpa [coordinator_step, hfail] using h
  · intro q hq
    exact List.mem_map_of_mem _ hq

/-- Witness for `coordinator_isolates_probe_failure`: probe `"a"` fails
with a non-finite loss while probe `"b"` succeeds on the same batch. -/
theorem coordinator_isolates_probe_failure_witness :
    (("a", Except.error "non-finite loss") ∈
      coordinator_step
        [("a", fun _ => Except.error "non-finite loss"),
         ("b", fun _ => Except.ok 1)] 0) ∧
    (∀ q ∈ [(("a" : String), (fun _ => Except.error "non-finite loss" :
          ProbeStep)), ("b", fun _ => Except.ok 1)],
      (q.1, q.2 0) ∈ coordinator_step
        [("a", fun _ => Except.error "non-finite loss"),
         ("b", fun _ => Except.ok 1)] 0) ∧
    (coordinator_step
        [("a", fun _ => Except.error "non-finite loss"),
         ("b", fun _ => Except.ok 1)] 0).length =
      ([(("a" : String), (fun _ => Except.error "non-finite loss" :
          ProbeStep)), ("b", fun _ => Except.ok 1)]).length :=
  coordinator_isolates_probe_failure
    [("a", fun _ => Except.error "non-finite loss"),
     ("b", fun _ => Except.ok 1)] 0 "a"
    (fun _ => Except.error "non-finite loss") "non-finite loss"
    (List.mem_cons_self _ _) rfl

lemma pyRangeAux_mem (step : ℕ) :
    ∀ fuel start stop x, x ∈ pyRangeAux step fuel start stop →
      start ≤ x ∧ x < stop := by
  intro fuel
  induction fuel with
  | zero =>
      intro start stop x hx
      simp [pyRangeAux] at hx
  | succ n ih =>
      intro start stop x hx
      simp only [pyRangeAux] at hx
      by_cases h : start < stop
      · rw [if_pos h] at hx
        rcases List.mem_cons.mp hx with rfl | hx
        · omega
        · have := ih (start + step) stop x hx
          omega
      · rw [if_neg h] at hx
        simp at hx

lemma pyRangeAux_nodup (step : ℕ) (hstep : 1 ≤ step) :
    ∀ fuel start stop, (pyRangeAux step fuel start stop).Nodup := by
  intro fuel
  induction fuel with
  | zero =>
      intro start stop
      simp [pyRangeAux]
  | succ n ih =>
      intro start stop
      simp only [pyRangeAux]
      by_cases h : start < stop
      · rw [if_pos h]
        refine List.nodup_cons.mpr ⟨?_, ih _ _⟩
        intro hmem
        have := pyRangeAux_mem step n (start + step) stop start hmem
        omega
      · rw [if_neg h]
        exact List.nodup_nil

/-- Claim C9: the layer indices chosen at startup,
`list(range(0, num_layers, probe_skip))`, are unique and strictly within
`[0, num_layers)` for every `num_layers ≥ 1` and `probe_skip ≥ 1`, and
`build_probes` constructs exactly one probe per chosen index, in order,
named `linear_probe_block_i`. -/
theorem probed_indices_valid (num_layers probe_skip emb_dim num_classes : ℕ)
    (hn : 1 ≤ num_layers) (hs : 1 ≤ probe_skip) :
    (pyRange 0 num_layers probe_skip).Nodup ∧
    (∀ i ∈ pyRange 0 num_layers probe_skip, i < num_layers) ∧
    (build_probes emb_dim num_classes
        (pyRange 0 num_layers probe_skip)).length =
      (pyRange 0 num_layers probe_skip).length ∧
    (build_probes emb_dim num_classes
        (pyRange 0 num_layers probe_skip)).map OnlineProbe.name =
      (pyRange 0 num_layers probe_skip).map
        (fun i => "linear_probe_block_" ++ toString i) := by
  refine ⟨pyRangeAux_nodup probe_skip hs _ _ _, ?_,
    by simp [build_probes], ?_⟩
  · intro i hi
    exact (pyRangeAux_mem probe_skip _ _ _ i hi).2
  · simp only [build_probes, List.map_map]
    rfl

/-- Witness for `probed_indices_valid` with a 12-block backbone and
stride 1. -/
theorem probed_indices_valid_witness :
    (pyRange 0 12 1).Nodup ∧
    (∀ i ∈ pyRange 0 12 1, i < 12) ∧
    (build_probes 768 100 (pyRange 0 12 1)).length =
      (pyRange 0 12 1).length ∧
    (build_probes 768 100 (pyRange 0 12 1)).map OnlineProbe.name =
      (pyRange 0 12 1).map (fun i => "linear_probe_block_" ++ toString i) :=
  probed_indices_valid 12 1 768 100 (by omega) (by omega)

/-- Claim C10: every `MODEL_ZOO` entry registers a pooling mode of
`"cls"` or `"mean"`, so for any backbone configuration obtained through
`load_backbone` from the actual registry the unknown-pooling error branch
of the fan-out forward can never be taken. -/
theorem zoo_pooling_valid :
    (∀ p ∈ MODEL_ZOO, p.2.pooling = "cls" ∨ p.2.pooling = "mean") ∧
    (∀ model_name res, load_backbone MODEL_ZOO model_name = .ok res →
      ∀ indices hiddens,
        ∃ l, forwardLoop indices hiddens res.pooling = .ok l) := by
  have hall : ∀ p ∈ MODEL_ZOO,
      p.2.pooling = "cls" ∨ p.2.pooling = "mean" := by decide
  refine ⟨hall, ?_⟩
  intro model_name res hres indices hiddens
  simp only [load_backbone] at hres
  cases hfind : MODEL_ZOO.find? (fun p => p.1 = model_name) with
  | none =>
      rw [hfind] at hres
      cases hres
  | some p =>
      rw [hfind] at hres
      cases hres
      have hmem := List.mem_of_find?_eq_some hfind
      exact ⟨_, forwardLoop_eq_map indices hiddens _ (hall p hmem)⟩

/-- Witness for `zoo_pooling_valid` at the `"DINOv2"` registry entry. -/
theorem zoo_pooling_valid_witness :
    ∃ l, forwardLoop [0] [⟨[[[1]]], true⟩, ⟨[[[2]]], true⟩]
      (BackboneLoad.pooling ⟨"cls", 1⟩) = .ok l :=
  zoo_pooling_valid.2 "DINOv2" ⟨"cls", 1⟩ rfl [0]
    [⟨[[[1]]], true⟩, ⟨[[[2]]], true⟩]
